import Mathlib

/-!
Verification of the lb-upload-standalone server (`src/server.ts`, the Bun
variant with date-partitioned storage, magic-byte sniffing and the legacy
UUID redirect route).  Every definition below is a shallow embedding of a
function or code path of that file; effectful code is modelled by explicit
state passing (the handler returns the list of filesystem / network actions
it performs together with the HTTP result it produces).
-/

namespace LbUpload

/-- Models `const MB = 1024 * 1024` (server.ts line 129). -/
def MB : Int := 1024 * 1024

/-- Models the helper computing `s.split(';')[0].trim()`, used both in
`getFileExtensionFromMime` (line 75) and in the allow-list comparison
(lines 301-302).  JS `split(';')[0]` is everything before the first `';'`
(the whole string when there is none); `trim()` removes whitespace at both
ends.  Implemented structurally over the character list so that it reduces
by `decide`/`rfl`. -/
def baseMimeType (m : String) : String :=
  let cs := m.toList.takeWhile (fun c => c != ';')
  String.mk (((cs.dropWhile Char.isWhitespace).reverse.dropWhile Char.isWhitespace).reverse)

/-- The static MIME→extension table of `getFileExtensionFromMime`
(server.ts lines 73-94): the mime map literal. -/
def mimeMap : List (String × String) :=
  [("audio/mpeg", "mp3"),
   ("audio/ogg", "ogg"),
   ("audio/opus", "opus"),
   ("audio/webm", "weba"),
   ("audio/wav", "wav"),
   ("video/mp4", "mp4"),
   ("video/webm", "webm"),
   ("video/mpeg", "mpeg"),
   ("video/ogg", "ogv"),
   ("image/jpeg", "jpg"),
   ("image/png", "png"),
   ("image/webp", "webp"),
   ("image/gif", "gif")]

/-- Models `getFileExtensionFromMime` (server.ts lines 73-94): normalize the
client MIME string by dropping `;`-parameters and trimming, then look it up
in the static table; `mimeMap[x] || null` is `none` on a miss (all table
values are nonempty strings, so JS truthiness equals presence). -/
def getFileExtensionFromMime (mimeType : String) : Option String :=
  let normalizedMimeType := baseMimeType mimeType
  mimeMap.lookup normalizedMimeType

/-- Result of `analyzeFileContent` (server.ts lines 49-68): the
(mime, extension) pair reported by the `file-type` signature sniffer. -/
structure FileAnalysisResult where
  mimeType : String
  extension : String
deriving DecidableEq

/-- Models the classification block of the upload handler (server.ts lines
263-292).  The `file-type` library call inside `analyzeFileContent` is an
external dependency, so it is passed in as the `sniff` parameter
(`analyzeFileContent` already collapses sniffing failure and sniffing errors
to `null`, i.e. `none`).  Returns `some (actualMimeType, extension)` on
success and `none` exactly when the handler would answer
400 `Unsupported file type` (line 286). -/
def classifyFile (sniff : List Nat → Option FileAnalysisResult)
    (clientMimeType : String) (buffer : List Nat) : Option (String × String) :=
  if clientMimeType == "audio/ogg" then
    some ("audio/ogg", "opus")
  else
    match sniff buffer with
    | some r => some (r.mimeType, r.extension)
    | none =>
      match getFileExtensionFromMime clientMimeType with
      | none => none
      | some fallbackExtension => some (clientMimeType, fallbackExtension)

/-- Models the `mimes.some(...)` allow-list test (server.ts lines 296-305):
an entry matches on exact equality or on equality of base MIME types
(codec parameters after `';'` ignored on both sides). -/
def isMimeAllowed (mimes : List String) (actualMimeType : String) : Bool :=
  mimes.any (fun allowedMime =>
    allowedMime == actualMimeType ||
      baseMimeType actualMimeType == baseMimeType allowedMime)

/-- Models the guard `if (mimes && mimes.length > 0)` plus `!isAllowed`
(server.ts lines 295-307): `none` stands for the value `false` of the
`string[] | false` field; a JS array is always truthy, hence the explicit
`length > 0` test. -/
def mimeRejected (mimes : Option (List String)) (actualMimeType : String) : Bool :=
  match mimes with
  | none => false
  | some l => decide (0 < l.length) && !(isMimeAllowed l actualMimeType)

/-- Models `if (fileSize && fileSize_bytes > fileSize * MB)` (server.ts line
259): `none` stands for `false`; a stored number is truthy unless it is `0`
(the config always stores the parsed number, so `0` disables the check). -/
def sizeExceeded (fileSize : Option Int) (bytes : Nat) : Bool :=
  match fileSize with
  | none => false
  | some n => decide (n ≠ 0) && decide ((bytes : Int) > n * MB)

/-- Models `if (apiKey && apiKey !== c.req.header('authorization'))`
(server.ts line 320): `none` stands for `false` (an empty `API_KEY` is
collapsed to `false` by `getEnv('API_KEY') || false`); a missing header is
`undefined`, which is never `===` a nonempty key. -/
def apiKeyRejected (apiKey : Option String) (authorization : Option String) : Bool :=
  match apiKey with
  | none => false
  | some key => !(authorization == some key)

/-- Models the origin guard (server.ts lines 324-329):
`if (!origin || !requireOrigin.includes(origin))`; `!origin` is true both
for a missing header and for the empty string. -/
def originRejected (requireOrigin : Option (List String)) (origin : Option String) : Bool :=
  match requireOrigin with
  | none => false
  | some origins =>
    match origin with
    | none => true
    | some o => o == "" || !(origins.contains o)

/-- Models `getPlayerMetadata` input (server.ts lines 216-233): the
`player-metadata` header is either absent, present but not parseable as
JSON (`JSON.parse` throws), or parsed with `identifier` and `name`
fields (string-valued; a missing field behaves as the empty string,
both being falsy). -/
inductive PlayerMetaHeader where
  | absent
  | malformed
  | parsed (identifier name : String)
deriving DecidableEq

/-- The metadata pair returned by `getPlayerMetadata` on success. -/
structure PlayerMetadata where
  identifier : String
  name : String
deriving DecidableEq

/-- Models `getPlayerMetadata` (server.ts lines 216-233): absent header or
parse failure yields `null`; a parsed object is kept only when
`parsed.identifier && parsed.name` is truthy, i.e. both strings nonempty. -/
def getPlayerMetadata : PlayerMetaHeader → Option PlayerMetadata
  | .absent => none
  | .malformed => none
  | .parsed i n => if i == "" then none else if n == "" then none else some ⟨i, n⟩

/-- Value of the leading decimal digits of a character list, `none` when
there is no leading digit. -/
def leadingDigits (cs : List Char) : Option Int :=
  let ds := cs.takeWhile Char.isDigit
  if ds.isEmpty then none
  else some (ds.foldl (fun acc c => acc * 10 + ((c.toNat : Int) - 48)) 0)

/-- Models `parseInt(s, 10)` on the strings relevant here: leading
whitespace is skipped, an optional sign is read, then the longest leading
run of decimal digits; `none` stands for `NaN` (no digit found). -/
def jsParseInt (s : String) : Option Int :=
  match s.toList.dropWhile Char.isWhitespace with
  | '-' :: rest => (leadingDigits rest).map (fun n => -n)
  | '+' :: rest => leadingDigits rest
  | cs => leadingDigits cs

/-- Models `getEnvNumber` (server.ts lines 21-26) applied to an
already-looked-up environment value: an empty value is falsy and yields the
default, otherwise `parseInt(value, 10)` is used, falling back to the
default on `NaN`. -/
def getEnvNumber (value : String) (defaultValue : Int) : Int :=
  if value == "" then defaultValue
  else
    match jsParseInt value with
    | none => defaultValue
    | some parsed => parsed

/-- The process-wide configuration (server.ts lines 131-184), with the
nested `Security`/`Limits`/`AppServer` records flattened.  `none` stands for
the literal `false` of the `| false` union fields.  `BaseUrl` is the current
value of the module-level mutable `baseUrl` variable (line 184), which is
`getEnv('BASE_URL')` at startup. -/
structure Config where
  UploadPath : String
  DiscordWebhook : Option String
  ApiKey : Option String
  RequireOrigin : Option (List String)
  FileSize : Option Int
  Mimes : Option (List String)
  BaseUrl : String
  Port : Nat
deriving DecidableEq

/-- The default `ALLOWED_MIMES` list (server.ts lines 157-175). -/
def defaultMimes : List String :=
  ["audio/mpeg", "audio/ogg", "audio/opus", "audio/webm", "audio/wav",
   "video/mp4", "video/webm", "video/mpeg", "video/ogg",
   "video/webm; codecs=\"vp9\"", "video/mp4; codecs=\"vp09\"", "video/mp4; codecs=\"vp9\"",
   "image/jpeg", "image/png", "image/webp", "image/gif"]

/-- Models JS `value || defaultValue` on strings: the empty string is
falsy. -/
def jsOrString (value : Option String) (defaultValue : String) : String :=
  match value with
  | none => defaultValue
  | some s => if s == "" then defaultValue else s

/-- Models the lazy base-URL computation (server.ts lines 332-336): when the
mutable `baseUrl` is still empty it is reconstructed from the `host` and
`x-forwarded-proto` headers with their defaults. -/
def resolveBaseUrl (baseUrl : String) (host xForwardedProto : Option String)
    (port : Nat) : String :=
  if baseUrl == "" then
    jsOrString xForwardedProto "http" ++ "://" ++
      jsOrString host ("localhost:" ++ toString port)
  else baseUrl

/-- The multipart file of the `file` field: its bytes
(`new Uint8Array(await file.arrayBuffer())`), its client-declared MIME type
(`file.type`) and its declared size (`file.size`), as read on server.ts
lines 254-256. -/
structure UploadedFile where
  bytes : List Nat
  type : String
  size : Nat
deriving DecidableEq

/-- The parts of an upload request the handler reads (server.ts lines
242-257 and the header reads further down). -/
structure UploadRequest where
  file : Option UploadedFile
  authorization : Option String
  origin : Option String
  host : Option String
  xForwardedProto : Option String
  playerMetadataHeader : PlayerMetaHeader
deriving DecidableEq

/-- The JSON success payload (server.ts lines 427-438). -/
structure SuccessPayload where
  filename : String
  link : String
  dateFolder : String
  relativePath : String
  size : Nat
  type : String
  clientType : String
  mimeTypeChanged : Bool
  playerMetadata : Option PlayerMetadata
deriving DecidableEq

/-- The two Discord webhook payload shapes (server.ts lines 388-403): the
embed message (with file name, date folder, byte size, MIME type, optional
player metadata and URL) and the plain link message. -/
inductive WebhookPayload where
  | embed (filename dateFolder : String) (sizeBytes : Nat) (mimeType : String)
      (player : Option PlayerMetadata) (url : String)
  | urlOnly (content : String)
deriving DecidableEq

/-- The externally observable actions the handler performs, in program
order: `ensureDateFolder`, the `bunFile.write` of the upload, each awaited
webhook `fetch`, and finally the issuing of the HTTP response
(`c.json(...)` with the given status). -/
inductive Action where
  | ensureDir (path : String)
  | writeFile (path : String) (data : List Nat)
  | webhookPost (url : String) (payload : WebhookPayload)
  | respond (status : Nat)
deriving DecidableEq

/-- Whether an action is the upload's filesystem write. -/
def Action.isWriteFile : Action → Bool
  | .writeFile _ _ => true
  | _ => false

/-- Whether an action is a webhook POST. -/
def Action.isWebhookPost : Action → Bool
  | .webhookPost _ _ => true
  | _ => false

/-- Whether an action is the issuing of the HTTP response. -/
def Action.isRespond : Action → Bool
  | .respond _ => true
  | _ => false

/-- The result value of the upload route, one constructor per `c.json`
return of the handler (server.ts lines 240-443). -/
inductive UploadResult where
  | noFile
  | tooLarge
  | unsupportedType
  | unallowedType (detectedType clientType : String)
  | invalidFileType
  | invalidApiKey
  | invalidOrigin
  | ok (payload : SuccessPayload)
deriving DecidableEq

/-- The HTTP status each result is returned with. -/
def UploadResult.status : UploadResult → Nat
  | .noFile => 400
  | .tooLarge => 413
  | .unsupportedType => 400
  | .unallowedType _ _ => 415
  | .invalidFileType => 400
  | .invalidApiKey => 401
  | .invalidOrigin => 403
  | .ok _ => 200

/-- The `error` field of each error body (the literal strings of the
`c.json({ error: ... })` calls). -/
def UploadResult.errorMessage : UploadResult → Option String
  | .noFile => some "No file uploaded"
  | .tooLarge => some "File is too large"
  | .unsupportedType => some "Unsupported file type"
  | .unallowedType _ _ => some "Unallowed file type"
  | .invalidFileType => some "Invalid file type"
  | .invalidApiKey => some "Invalid API key"
  | .invalidOrigin => some "Invalid origin"
  | .ok _ => none

/-- What one request to `POST /upload/` produces: the JSON result and the
ordered list of externally observable actions. -/
structure UploadOutcome where
  result : UploadResult
  actions : List Action
deriving DecidableEq

/-- Models the `POST /upload/` handler (server.ts lines 240-444), line by
line.  External inputs that the code obtains from libraries or ambient
state are parameters: `sniff` is the behaviour of `analyzeFileContent`
(the `file-type` sniffer, `none` on no match or error), `genUuid` the value
of `uuid()`, `dateFolder` the value of `getDateFolder()`, and
`webhookFail1`/`webhookFail2` whether the first/second awaited webhook
`fetch` throws (the `try` block on lines 406-424 catches the error, and a
throw of the first fetch skips the second).  The returned action list is in
program order; note that the `respond` action comes after the webhook posts
because both fetches are awaited before `c.json` runs. -/
def uploadHandler (cfg : Config) (sniff : List Nat → Option FileAnalysisResult)
    (genUuid dateFolder : String) (webhookFail1 webhookFail2 : Bool)
    (req : UploadRequest) : UploadOutcome :=
  match req.file with
  | none => { result := .noFile, actions := [.respond 400] }
  | some file =>
    if sizeExceeded cfg.FileSize file.size then
      { result := .tooLarge, actions := [.respond 413] }
    else
      match classifyFile sniff file.type file.bytes with
      | none => { result := .unsupportedType, actions := [.respond 400] }
      | some (actualMimeType, extension) =>
        if mimeRejected cfg.Mimes actualMimeType then
          { result := .unallowedType actualMimeType file.type, actions := [.respond 415] }
        else if extension == "" then
          { result := .invalidFileType, actions := [.respond 400] }
        else if apiKeyRejected cfg.ApiKey req.authorization then
          { result := .invalidApiKey, actions := [.respond 401] }
        else if originRejected cfg.RequireOrigin req.origin then
          { result := .invalidOrigin, actions := [.respond 403] }
        else
          let resolvedBase := resolveBaseUrl cfg.BaseUrl req.host req.xForwardedProto cfg.Port
          let playerMetadata := getPlayerMetadata req.playerMetadataHeader
          let filename := genUuid ++ "." ++ extension
          let relativePath := dateFolder ++ "/" ++ filename
          let url := resolvedBase ++ "/uploads/" ++ relativePath
          let webhookActions : List Action :=
            match cfg.DiscordWebhook with
            | none => []
            | some wh =>
              let embedPayload : WebhookPayload :=
                .embed filename dateFolder file.bytes.length actualMimeType playerMetadata url
              let urlPayload : WebhookPayload := .urlOnly url
              if webhookFail1 then [.webhookPost wh embedPayload]
              else [.webhookPost wh embedPayload, .webhookPost wh urlPayload]
          { result := .ok
              { filename := filename
                link := url
                dateFolder := dateFolder
                relativePath := relativePath
                size := file.bytes.length
                type := actualMimeType
                clientType := file.type
                mimeTypeChanged := file.type != actualMimeType
                playerMetadata := playerMetadata }
            actions :=
              [.ensureDir (cfg.UploadPath ++ "/" ++ dateFolder),
               .writeFile (cfg.UploadPath ++ "/" ++ dateFolder ++ "/" ++ filename) file.bytes]
              ++ webhookActions ++ [.respond 200] }

/-- Models `String(x).padStart(2, '0')` for width 2 as used in
`getDateFolder` (server.ts lines 201-202). -/
def padStart2 (s : String) : String :=
  if s.length ≥ 2 then s else if s.length = 1 then "0" ++ s else "00"

/-- Models `getDateFolder` (server.ts lines 198-204) on a given local date;
`month` is already 1-based (the code adds 1 to `getMonth()`). -/
def getDateFolder (year month day : Nat) : String :=
  toString year ++ "-" ++ padStart2 (toString month) ++ "-" ++ padStart2 (toString day)

/-- Hexadecimal digit as matched by `[0-9a-f]` under the `/i` flag. -/
def isHexDigitChar (c : Char) : Bool :=
  c.isDigit || (decide ('a' ≤ c) && decide (c ≤ 'f')) || (decide ('A' ≤ c) && decide (c ≤ 'F'))

/-- A regex word character `\w`, i.e. `[A-Za-z0-9_]`. -/
def isWordChar (c : Char) : Bool :=
  c.isAlphanum || c == '_'

/-- Models the test of `uuidPattern` (server.ts line 451):
`/^[0-9a-f]{8}-[0-9a-f]{4}-[0-9a-f]{4}-[0-9a-f]{4}-[0-9a-f]{12}\.\w+$/i`,
i.e. 36 characters of dash-separated hex groups, a dot, then a nonempty
word-character extension. -/
def isUuidFilename (s : String) : Bool :=
  let cs := s.toList
  decide (cs.length ≥ 38) &&
  ((List.range 36).all (fun i =>
    if i == 8 || i == 13 || i == 18 || i == 23 then cs.getD i ' ' == '-'
    else isHexDigitChar (cs.getD i ' '))) &&
  (cs.getD 36 ' ' == '.') &&
  ((cs.drop 37).all isWordChar)

/-- Models the test of `dateFolderPattern` (server.ts line 464):
`/^\d{4}-\d{2}-\d{2}$/`. -/
def isDateFolderName (s : String) : Bool :=
  let cs := s.toList
  decide (cs.length = 10) &&
  ((List.range 10).all (fun i =>
    if i == 4 || i == 7 then cs.getD i ' ' == '-' else (cs.getD i ' ').isDigit))

/-- One entry of the storage root as enumerated by
`new Bun.Glob('*').scan({ cwd: uploadsDir, onlyFiles: false })`
(server.ts line 460): either a plain (flat) file or a directory with its
files. -/
inductive DirEntry where
  | file (name : String)
  | dir (name : String) (files : List String)
deriving DecidableEq

/-- The entry's name as seen by the scan loop. -/
def DirEntry.name : DirEntry → String
  | .file n => n
  | .dir n _ => n

/-- Models the existence check
`await bunFile.exists(uploadsDir + '/' + entry + '/' + filename)`
(server.ts line 469): a path below a plain file never exists. -/
def DirEntry.containsFile : DirEntry → String → Bool
  | .file _, _ => false
  | .dir _ files, fname => files.contains fname

/-- The result of `GET /uploads/:filename` (server.ts lines 447-482):
`c.notFound()`, a `c.redirect(uri, 301)`, or a `c.json({error}, status)`
body. -/
inductive GetResult where
  | notFound
  | redirect (status : Nat) (location : String)
  | jsonError (status : Nat) (message : String)
deriving DecidableEq

/-- Models the scan loop of `GET /uploads/:filename` (server.ts lines
462-474): walk the root entries in order, skip names not matching the
date-folder pattern, and return the first date folder containing the
file. -/
def findDateFolderWith (entries : List DirEntry) (filename : String) : Option String :=
  match entries with
  | [] => none
  | e :: rest =>
    if isDateFolderName e.name && e.containsFile filename then some e.name
    else findDateFolderWith rest filename

/-- Models the `GET /uploads/:filename` handler (server.ts lines 447-482):
reject names not matching the UUID pattern with `c.notFound()` (no scan
happens), otherwise scan the date folders and either answer a permanent
301 redirect to the dated URL or a 404 JSON error. -/
def getUploadsByFilename (entries : List DirEntry) (filename : String) : GetResult :=
  if !(isUuidFilename filename) then .notFound
  else
    match findDateFolderWith entries filename with
    | some entry => .redirect 301 ("/uploads/" ++ entry ++ "/" ++ filename)
    | none => .jsonError 404 "File not found"

/-- Whether the upload result is the success case. -/
def UploadResult.isOk : UploadResult → Bool
  | .ok _ => true
  | _ => false

/-- A detected type whose base form matches no allow-list entry's base form
fails `isMimeAllowed`: an exact match would in particular be a base-form
match. -/
theorem isMimeAllowed_eq_false_of_no_base_match (l : List String) (a : String)
    (h : ∀ m ∈ l, ¬ baseMimeType a = baseMimeType m) :
    isMimeAllowed l a = false := by
  simp only [isMimeAllowed, List.any_eq_false, Bool.or_eq_true, beq_iff_eq, not_or]
  intro m hm
  exact ⟨fun he => h m hm (by rw [he]), h m hm⟩

/-- A base-form match with any list member makes `isMimeAllowed` succeed. -/
theorem isMimeAllowed_of_base_mem (l : List String) (a m : String)
    (hm : m ∈ l) (hb : baseMimeType a = baseMimeType m) :
    isMimeAllowed l a = true := by
  simp only [isMimeAllowed, List.any_eq_true]
  exact ⟨m, hm, by simp [hb]⟩

/-- Branch inversion facts about the upload handler, all established by one
walk over its control flow: a 413 only arises from the size guard, a 401
only from the API-key guard, every non-success answer performs nothing but
the response, a success payload's `playerMetadata` field is exactly
`getPlayerMetadata` of the request header, and so is the player field of
any embed webhook payload that gets posted. -/
theorem uploadHandler_inversion (cfg : Config)
    (sniff : List Nat → Option FileAnalysisResult) (u d : String) (f1 f2 : Bool)
    (req : UploadRequest) :
    ((uploadHandler cfg sniff u d f1 f2 req).result = .tooLarge →
       ∃ file, req.file = some file ∧ sizeExceeded cfg.FileSize file.size = true) ∧
    ((uploadHandler cfg sniff u d f1 f2 req).result = .invalidApiKey →
       apiKeyRejected cfg.ApiKey req.authorization = true) ∧
    (((uploadHandler cfg sniff u d f1 f2 req).result).isOk = false →
       (uploadHandler cfg sniff u d f1 f2 req).actions =
         [Action.respond (((uploadHandler cfg sniff u d f1 f2 req).result).status)]) ∧
    (∀ p, (uploadHandler cfg sniff u d f1 f2 req).result = .ok p →
       p.playerMetadata = getPlayerMetadata req.playerMetadataHeader) ∧
    (∀ wh fn df sz mt pm url,
       Action.webhookPost wh (WebhookPayload.embed fn df sz mt pm url) ∈
         (uploadHandler cfg sniff u d f1 f2 req).actions →
       pm = getPlayerMetadata req.playerMetadataHeader) := by
  cases hfl : req.file with
  | none =>
    simp [uploadHandler, hfl, UploadResult.status, UploadResult.isOk]
  | some file =>
    cases hs : sizeExceeded cfg.FileSize file.size with
    | true =>
      refine ⟨fun _ => ⟨file, rfl, hs⟩, ?_, ?_, ?_, ?_⟩ <;>
        simp [uploadHandler, hfl, hs, UploadResult.status, UploadResult.isOk]
    | false =>
      cases hc : classifyFile sniff file.type file.bytes with
      | none =>
        simp [uploadHandler, hfl, hs, hc, UploadResult.status, UploadResult.isOk]
      | some pr =>
        obtain ⟨a, e⟩ := pr
        cases hmr : mimeRejected cfg.Mimes a with
        | true =>
          simp [uploadHandler, hfl, hs, hc, hmr, UploadResult.status, UploadResult.isOk]
        | false =>
          cases he : e == "" with
          | true =>
            simp [uploadHandler, hfl, hs, hc, hmr, he, UploadResult.status, UploadResult.isOk]
          | false =>
            cases hak : apiKeyRejected cfg.ApiKey req.authorization with
            | true =>
              refine ⟨?_, fun _ => rfl, ?_, ?_, ?_⟩ <;>
                simp [uploadHandler, hfl, hs, hc, hmr, he, hak, UploadResult.status, UploadResult.isOk]
            | false =>
              cases hor : originRejected cfg.RequireOrigin req.origin with
              | true =>
                simp [uploadHandler, hfl, hs, hc, hmr, he, hak, hor, UploadResult.status,
                  UploadResult.isOk]
              | false =>
                cases hw : cfg.DiscordWebhook with
                | none =>
                  refine ⟨?_, ?_, ?_, ?_, ?_⟩ <;>
                    simp [uploadHandler, hfl, hs, hc, hmr, he, hak, hor, hw, UploadResult.status,
                      UploadResult.isOk]
                | some wh =>
                  cases f1 <;>
                    refine ⟨?_, ?_, ?_, ?_, ?_⟩ <;>
                      (simp [uploadHandler, hfl, hs, hc, hmr, he, hak, hor, hw, UploadResult.status,
                        UploadResult.isOk]
                       try (intros; assumption))

/-- If no date-named directory contains the file, the scan loop finds
nothing. -/
theorem findDateFolderWith_eq_none (entries : List DirEntry) (filename : String)
    (h : ∀ e ∈ entries, isDateFolderName e.name = true → e.containsFile filename = false) :
    findDateFolderWith entries filename = none := by
  induction entries with
  | nil => rfl
  | cons e rest ih =>
    have hcond : (isDateFolderName e.name && e.containsFile filename) = false := by
      cases hd : isDateFolderName e.name with
      | false => rfl
      | true => simp [h e (List.mem_cons_self e rest) hd]
    simp only [findDateFolderWith, hcond, Bool.false_eq_true, if_false]
    exact ih (fun x hx hdx => h x (List.mem_cons_of_mem e hx) hdx)

/-- Whatever the scan loop returns is the name of a date-named entry of the
listing that contains the file. -/
theorem findDateFolderWith_eq_some (entries : List DirEntry) (filename d : String)
    (h : findDateFolderWith entries filename = some d) :
    isDateFolderName d = true ∧
      ∃ e ∈ entries, e.name = d ∧ e.containsFile filename = true := by
  induction entries with
  | nil => simp [findDateFolderWith] at h
  | cons e rest ih =>
    rw [findDateFolderWith] at h
    cases hcond : (isDateFolderName e.name && e.containsFile filename) with
    | true =>
      rw [hcond] at h
      simp only [if_true] at h
      rw [Bool.and_eq_true] at hcond
      obtain ⟨hd, hc⟩ := hcond
      obtain rfl : e.name = d := by simpa using h
      exact ⟨hd, e, List.mem_cons_self e rest, rfl, hc⟩
    | false =>
      rw [hcond] at h
      simp only [Bool.false_eq_true, if_false] at h
      obtain ⟨hd, e', he', hn, hc⟩ := ih h
      exact ⟨hd, e', List.mem_cons_of_mem e he', hn, hc⟩

/-- If some date-named entry of the listing contains the file, the scan
loop finds one. -/
theorem findDateFolderWith_isSome (entries : List DirEntry) (filename : String)
    (h : ∃ e ∈ entries, isDateFolderName e.name = true ∧ e.containsFile filename = true) :
    ∃ d, findDateFolderWith entries filename = some d := by
  induction entries with
  | nil => obtain ⟨e, he, -⟩ := h; cases he
  | cons e rest ih =>
    cases hcond : (isDateFolderName e.name && e.containsFile filename) with
    | true => exact ⟨e.name, by simp [findDateFolderWith, hcond]⟩
    | false =>
      obtain ⟨e', he', hd, hc⟩ := h
      rcases List.mem_cons.mp he' with rfl | hmem
      · simp [hd, hc] at hcond
      · obtain ⟨d, hdd⟩ := ih ⟨e', hmem, hd, hc⟩
        exact ⟨d, by simp [findDateFolderWith, hcond, hdd]⟩

/-- The upload handler reads the `player-metadata` header only through
`getPlayerMetadata`: two headers with the same parse result produce the
same outcome. -/
theorem uploadHandler_metadata_congr (cfg : Config)
    (sniff : List Nat → Option FileAnalysisResult) (u d : String) (f1 f2 : Bool)
    (req : UploadRequest) (h1 h2 : PlayerMetaHeader)
    (hm : getPlayerMetadata h1 = getPlayerMetadata h2) :
    uploadHandler cfg sniff u d f1 f2 { req with playerMetadataHeader := h1 } =
      uploadHandler cfg sniff u d f1 f2 { req with playerMetadataHeader := h2 } := by
  simp [uploadHandler, hm]

/-- A sniffer that never recognises a signature (models `fileTypeFromBuffer`
returning `undefined` on an unrecognised buffer). -/
def sniffNone : List Nat → Option FileAnalysisResult := fun _ => none

/-- A sniffer recognising exactly the JPEG magic bytes `FF D8 FF`, the
behaviour of `fileTypeFromBuffer` on such buffers. -/
def sniffJpeg : List Nat → Option FileAnalysisResult := fun b =>
  if b.take 3 = [255, 216, 255] then some { mimeType := "image/jpeg", extension := "jpg" }
  else none

/-- A configuration with the defaults of server.ts lines 148-180 and
`BASE_URL` set. -/
def cfgBase : Config :=
  { UploadPath := "./uploads"
    DiscordWebhook := none
    ApiKey := none
    RequireOrigin := none
    FileSize := some 50
    Mimes := some defaultMimes
    BaseUrl := "http://cdn.example"
    Port := 30121 }

/-- A small JPEG-signature file declared as `application/octet-stream`. -/
def fileJpeg : UploadedFile :=
  { bytes := [255, 216, 255, 224], type := "application/octet-stream", size := 4 }

/-- A small JPEG upload request declared as `application/octet-stream`. -/
def reqJpeg : UploadRequest :=
  { file := some fileJpeg
    authorization := none
    origin := none
    host := none
    xForwardedProto := none
    playerMetadataHeader := .absent }

/-- Claim C1: when a nonempty MIME allow-list is configured and the request
reaches the allow-list check (file present, size accepted, type resolved),
a resolved type whose base form matches no entry's base form is rejected
with status 415 and the error body `Unallowed file type` carrying both the
detected and the client-declared type, and no file is written; conversely
a detected `video/webm;codecs=vp9` passes whenever `video/webm` is in the
list. -/
theorem mime_allowlist_enforced (cfg : Config)
    (sniff : List Nat → Option FileAnalysisResult) (u d : String) (f1 f2 : Bool)
    (req : UploadRequest) (file : UploadedFile) (mimes : List String) (a e : String)
    (hf : req.file = some file)
    (hm : cfg.Mimes = some mimes)
    (hne : 0 < mimes.length)
    (hs : sizeExceeded cfg.FileSize file.size = false)
    (hc : classifyFile sniff file.type file.bytes = some (a, e)) :
    ((∀ m ∈ mimes, ¬ baseMimeType a = baseMimeType m) →
       (uploadHandler cfg sniff u d f1 f2 req).result = .unallowedType a file.type ∧
       ((uploadHandler cfg sniff u d f1 f2 req).result).status = 415 ∧
       ((uploadHandler cfg sniff u d f1 f2 req).result).errorMessage =
         some "Unallowed file type" ∧
       (uploadHandler cfg sniff u d f1 f2 req).actions = [Action.respond 415] ∧
       ∀ act ∈ (uploadHandler cfg sniff u d f1 f2 req).actions, act.isWriteFile = false) ∧
    ("video/webm" ∈ mimes → isMimeAllowed mimes "video/webm;codecs=vp9" = true) := by
  constructor
  · intro hall
    have hrej : mimeRejected cfg.Mimes a = true := by
      rw [hm]
      simp only [mimeRejected, isMimeAllowed_eq_false_of_no_base_match mimes a hall]
      simp [hne]
    have houtcome : uploadHandler cfg sniff u d f1 f2 req =
        { result := .unallowedType a file.type, actions := [Action.respond 415] } := by
      simp [uploadHandler, hf, hs, hc, hrej]
    rw [houtcome]
    refine ⟨rfl, rfl, rfl, rfl, ?_⟩
    intro act hact
    obtain rfl : act = Action.respond 415 := by simpa using hact
    rfl
  · intro hmem
    exact isMimeAllowed_of_base_mem mimes "video/webm;codecs=vp9" "video/webm" hmem (by decide)

/-- Witness for C1 at a concrete input: a sniffed JPEG against the list
`["image/png", "video/webm"]` is rejected as `unallowedType` with both
types reported, and `video/webm;codecs=vp9` passes the same list. -/
theorem mime_allowlist_enforced_w :
    (uploadHandler { cfgBase with Mimes := some ["image/png", "video/webm"] } sniffJpeg
        "u-1" "2025-10-16" false false reqJpeg).result =
      .unallowedType "image/jpeg" "application/octet-stream" ∧
    isMimeAllowed ["image/png", "video/webm"] "video/webm;codecs=vp9" = true := by
  have h := mime_allowlist_enforced { cfgBase with Mimes := some ["image/png", "video/webm"] }
    sniffJpeg "u-1" "2025-10-16" false false reqJpeg
    { bytes := [255, 216, 255, 224], type := "application/octet-stream", size := 4 }
    ["image/png", "video/webm"] "image/jpeg" "jpg"
    rfl rfl (by decide) (by decide) (by decide)
  exact ⟨(h.1 (by decide)).1, h.2 (by decide)⟩

/-- Claim C2: a present file whose declared size strictly exceeds the
configured (nonzero) megabyte limit times 1,048,576 is rejected with 413
and the message `File is too large`, before any filesystem action. -/
theorem size_limit_rejects (cfg : Config)
    (sniff : List Nat → Option FileAnalysisResult) (u d : String) (f1 f2 : Bool)
    (req : UploadRequest) (file : UploadedFile) (n : Int)
    (hf : req.file = some file)
    (hn : cfg.FileSize = some n)
    (hn0 : ¬ n = 0)
    (hgt : (file.size : Int) > n * MB) :
    (uploadHandler cfg sniff u d f1 f2 req).result = .tooLarge ∧
    ((uploadHandler cfg sniff u d f1 f2 req).result).status = 413 ∧
    ((uploadHandler cfg sniff u d f1 f2 req).result).errorMessage =
      some "File is too large" ∧
    (uploadHandler cfg sniff u d f1 f2 req).actions = [Action.respond 413] ∧
    ∀ act ∈ (uploadHandler cfg sniff u d f1 f2 req).actions, act.isWriteFile = false := by
  have hs : sizeExceeded cfg.FileSize file.size = true := by
    rw [hn]
    simp only [sizeExceeded, decide_eq_true hn0, decide_eq_true hgt, Bool.and_self]
  have houtcome : uploadHandler cfg sniff u d f1 f2 req =
      { result := .tooLarge, actions := [Action.respond 413] } := by
    simp [uploadHandler, hf, hs]
  rw [houtcome]
  refine ⟨rfl, rfl, rfl, rfl, ?_⟩
  intro act hact
  obtain rfl : act = Action.respond 413 := by simpa using hact
  rfl

/-- A JPEG file whose declared size is one byte over 1 MB. -/
def fileBig : UploadedFile :=
  { bytes := [255, 216, 255], type := "image/jpeg", size := 1048577 }

/-- An upload request carrying `fileBig`. -/
def reqBig : UploadRequest := { reqJpeg with file := some fileBig }

/-- Witness for C2: a 1,048,577-byte file against a 1 MB limit is rejected
as `tooLarge`. -/
theorem size_limit_rejects_w :
    (uploadHandler { cfgBase with FileSize := some 1 } sniffJpeg "u-1" "2025-10-16" false false
      reqBig).result = .tooLarge :=
  (size_limit_rejects { cfgBase with FileSize := some 1 } sniffJpeg "u-1" "2025-10-16" false false
    reqBig fileBig 1 rfl rfl (by decide) (by decide)).1

/-- A small file declared with a MIME type that neither sniffs nor appears
in the static extension table. -/
def fileFoo : UploadedFile := { bytes := [1, 2, 3], type := "text/x-foo", size := 3 }

/-- Claim C3: a buffer whose leading bytes the sniffer recognises is
classified by the sniffed canonical MIME type and extension, whatever the
client declared — except that a declared `audio/ogg` bypasses sniffing
entirely (the result does not depend on the sniffer at all); when sniffing
finds no match, the declared type (stripped of `;`-parameters) is mapped
through the static table, and when that also fails the handler rejects the
request (status 400). -/
theorem classifier_contract (sniff sniff' : List Nat → Option FileAnalysisResult)
    (buffer : List Nat) (declared : String) (r : FileAnalysisResult) :
    (¬ declared = "audio/ogg" → sniff buffer = some r →
       classifyFile sniff declared buffer = some (r.mimeType, r.extension)) ∧
    (classifyFile sniff "audio/ogg" buffer = some ("audio/ogg", "opus") ∧
     classifyFile sniff "audio/ogg" buffer = classifyFile sniff' "audio/ogg" buffer) ∧
    (¬ declared = "audio/ogg" → sniff buffer = none →
       classifyFile sniff declared buffer =
         (getFileExtensionFromMime declared).map (fun ext => (declared, ext))) ∧
    (∀ (cfg : Config) (u d : String) (f1 f2 : Bool) (req : UploadRequest)
       (file : UploadedFile),
       req.file = some file →
       file.type = declared →
       file.bytes = buffer →
       sizeExceeded cfg.FileSize file.size = false →
       classifyFile sniff declared buffer = none →
       (uploadHandler cfg sniff u d f1 f2 req).result = .unsupportedType ∧
       ((uploadHandler cfg sniff u d f1 f2 req).result).status = 400) := by
  refine ⟨?_, ⟨?_, ?_⟩, ?_, ?_⟩
  · intro hne hsn
    simp [classifyFile, hne, hsn]
  · simp [classifyFile]
  · simp [classifyFile]
  · intro hne hsn
    cases hext : getFileExtensionFromMime declared <;>
      simp [classifyFile, hne, hsn, hext]
  · intro cfg u d f1 f2 req file hf htype hbytes hs hcn
    have hc : classifyFile sniff file.type file.bytes = none := by
      rw [htype, hbytes]; exact hcn
    have houtcome : uploadHandler cfg sniff u d f1 f2 req =
        { result := .unsupportedType, actions := [Action.respond 400] } := by
      simp [uploadHandler, hf, hs, hc]
    rw [houtcome]
    exact ⟨rfl, rfl⟩

/-- Witness for C3 at concrete inputs: the JPEG sniffer overrides a
declared `application/octet-stream`; `audio/ogg` bypasses any sniffer;
an unmapped declared type with no sniff match classifies to `none` and the
handler answers `unsupportedType`. -/
theorem classifier_contract_w :
    classifyFile sniffJpeg "application/octet-stream" [255, 216, 255, 224] =
      some ("image/jpeg", "jpg") ∧
    classifyFile sniffJpeg "audio/ogg" [255, 216, 255, 224] = some ("audio/ogg", "opus") ∧
    (uploadHandler cfgBase sniffNone "u-1" "2025-10-16" false false
      { reqJpeg with file := some fileFoo }).result = .unsupportedType := by
  refine ⟨?_, ?_, ?_⟩
  · exact (classifier_contract sniffJpeg sniffNone [255, 216, 255, 224]
      "application/octet-stream" { mimeType := "image/jpeg", extension := "jpg" }).1
      (by decide) (by decide)
  · exact ((classifier_contract sniffJpeg sniffNone [255, 216, 255, 224]
      "audio/ogg" { mimeType := "image/jpeg", extension := "jpg" }).2.1).1
  · exact ((classifier_contract sniffNone sniffNone [1, 2, 3] "text/x-foo"
      { mimeType := "image/jpeg", extension := "jpg" }).2.2.2 cfgBase "u-1" "2025-10-16"
      false false { reqJpeg with file := some fileFoo } fileFoo
      rfl rfl rfl (by decide) (by decide)).1

/-- Counterexample to claim C4 as stated: with the allow-list
`["image/png"]` configured, an upload declared `text/x-foo` whose bytes
sniff to nothing is rejected 400 `Unsupported file type` by the
extension-resolution fallback — even though the allow-list check would
reject this type — so the extension-resolvability rejection happens
before the MIME allow-list check, not after it as the claim orders them,
and the response is not the claimed 415. -/
theorem validation_order_counterexample :
    (uploadHandler { cfgBase with Mimes := some ["image/png"] } sniffNone "u-1" "2025-10-16"
      false false { reqJpeg with file := some fileFoo }).result = .unsupportedType ∧
    UploadResult.status .unsupportedType = 400 ∧
    mimeRejected (some ["image/png"]) "text/x-foo" = true ∧
    ¬ ((uploadHandler { cfgBase with Mimes := some ["image/png"] } sniffNone "u-1" "2025-10-16"
      false false { reqJpeg with file := some fileFoo }).result).status = 415 := by
  refine ⟨rfl, rfl, by decide, by decide⟩

/-- Amended claim C4: the checks run and short-circuit in the order
actually implemented — missing file (400), size limit (413), type and
extension resolution during classification (rejecting 400
`Unsupported file type` when neither sniffing nor the fallback table
resolves the type), MIME allow-list (415), the residual empty-extension
check (400 `Invalid file type`), API key (401), origin (403) — and every
rejection answers with that check's error alone and performs no filesystem
write. -/
theorem validation_order_actual (cfg : Config)
    (sniff : List Nat → Option FileAnalysisResult) (u d : String) (f1 f2 : Bool)
    (req : UploadRequest) :
    (req.file = none →
       uploadHandler cfg sniff u d f1 f2 req =
         { result := .noFile, actions := [Action.respond 400] }) ∧
    (∀ file, req.file = some file →
       sizeExceeded cfg.FileSize file.size = true →
       uploadHandler cfg sniff u d f1 f2 req =
         { result := .tooLarge, actions := [Action.respond 413] }) ∧
    (∀ file, req.file = some file →
       sizeExceeded cfg.FileSize file.size = false →
       classifyFile sniff file.type file.bytes = none →
       uploadHandler cfg sniff u d f1 f2 req =
         { result := .unsupportedType, actions := [Action.respond 400] }) ∧
    (∀ file a e, req.file = some file →
       sizeExceeded cfg.FileSize file.size = false →
       classifyFile sniff file.type file.bytes = some (a, e) →
       mimeRejected cfg.Mimes a = true →
       uploadHandler cfg sniff u d f1 f2 req =
         { result := .unallowedType a file.type, actions := [Action.respond 415] }) ∧
    (∀ file a, req.file = some file →
       sizeExceeded cfg.FileSize file.size = false →
       classifyFile sniff file.type file.bytes = some (a, "") →
       mimeRejected cfg.Mimes a = false →
       uploadHandler cfg sniff u d f1 f2 req =
         { result := .invalidFileType, actions := [Action.respond 400] }) ∧
    (∀ file a e, req.file = some file →
       sizeExceeded cfg.FileSize file.size = false →
       classifyFile sniff file.type file.bytes = some (a, e) →
       mimeRejected cfg.Mimes a = false →
       ¬ e = "" →
       apiKeyRejected cfg.ApiKey req.authorization = true →
       uploadHandler cfg sniff u d f1 f2 req =
         { result := .invalidApiKey, actions := [Action.respond 401] }) ∧
    (∀ file a e, req.file = some file →
       sizeExceeded cfg.FileSize file.size = false →
       classifyFile sniff file.type file.bytes = some (a, e) →
       mimeRejected cfg.Mimes a = false →
       ¬ e = "" →
       apiKeyRejected cfg.ApiKey req.authorization = false →
       originRejected cfg.RequireOrigin req.origin = true →
       uploadHandler cfg sniff u d f1 f2 req =
         { result := .invalidOrigin, actions := [Action.respond 403] }) ∧
    (((uploadHandler cfg sniff u d f1 f2 req).result).isOk = false →
       ∀ act ∈ (uploadHandler cfg sniff u d f1 f2 req).actions, act.isWriteFile = false) := by
  refine ⟨?_, ?_, ?_, ?_, ?_, ?_, ?_, ?_⟩
  · intro h
    simp [uploadHandler, h]
  · intro file hf hs
    simp [uploadHandler, hf, hs]
  · intro file hf hs hc
    simp [uploadHandler, hf, hs, hc]
  · intro file a e hf hs hc hmr
    simp [uploadHandler, hf, hs, hc, hmr]
  · intro file a hf hs hc hmr
    simp [uploadHandler, hf, hs, hc, hmr]
  · intro file a e hf hs hc hmr hne hak
    simp [uploadHandler, hf, hs, hc, hmr, hne, hak]
  · intro file a e hf hs hc hmr hne hak hor
    simp [uploadHandler, hf, hs, hc, hmr, hne, hak, hor]
  · intro hnok act hact
    rw [(uploadHandler_inversion cfg sniff u d f1 f2 req).2.2.1 hnok] at hact
    obtain rfl : act = Action.respond (((uploadHandler cfg sniff u d f1 f2 req).result).status) :=
      by simpa using hact
    rfl

/-- Witness for the amended C4 at a concrete input: a sniffed JPEG against
the allow-list `["image/png"]` yields exactly the 415 `unallowedType`
outcome with no filesystem action. -/
theorem validation_order_actual_w :
    uploadHandler { cfgBase with Mimes := some ["image/png"] } sniffJpeg "u-1" "2025-10-16"
      false false reqJpeg =
    { result := .unallowedType "image/jpeg" "application/octet-stream",
      actions := [Action.respond 415] } :=
  (validation_order_actual { cfgBase with Mimes := some ["image/png"] } sniffJpeg
    "u-1" "2025-10-16" false false reqJpeg).2.2.2.1 fileJpeg "image/jpeg" "jpg"
    rfl (by decide) (by decide) (by decide)

/-- Claim C5: for a single-segment request whose name matches the
UUID-with-extension pattern, the handler answers a permanent 301 redirect
to `/uploads/{dateFolder}/{filename}` for some date folder of the listing
containing the file when one exists, and the 404 body `File not found`
when none does. -/
theorem legacy_uuid_redirect (entries : List DirEntry) (filename : String)
    (hu : isUuidFilename filename = true) :
    ((∃ e ∈ entries, isDateFolderName e.name = true ∧ e.containsFile filename = true) →
       ∃ dd, isDateFolderName dd = true ∧
         (∃ e ∈ entries, e.name = dd ∧ e.containsFile filename = true) ∧
         getUploadsByFilename entries filename =
           .redirect 301 ("/uploads/" ++ dd ++ "/" ++ filename)) ∧
    ((∀ e ∈ entries, isDateFolderName e.name = true → e.containsFile filename = false) →
       getUploadsByFilename entries filename = .jsonError 404 "File not found") := by
  constructor
  · intro hex
    obtain ⟨dd, hdd⟩ := findDateFolderWith_isSome entries filename hex
    obtain ⟨hdate, hwit⟩ := findDateFolderWith_eq_some entries filename dd hdd
    refine ⟨dd, hdate, hwit, ?_⟩
    simp [getUploadsByFilename, hu, hdd]
  · intro hnone
    simp [getUploadsByFilename, hu, findDateFolderWith_eq_none entries filename hnone]

/-- The UUID-shaped filename used in the retrieval witnesses. -/
def uuidName : String := "ab9c2b65-a053-412c-b1d1-b1c241c14591.webp"

/-- A storage-root listing with a stray flat file, a non-date directory and
one date directory holding `uuidName`. -/
def entriesHit : List DirEntry :=
  [DirEntry.file "stray.bin",
   DirEntry.dir "not-a-date" [uuidName],
   DirEntry.dir "2025-10-16" [uuidName]]

/-- Witness for C5: on `entriesHit` the legacy route redirects `uuidName`
to a dated URL of a date folder containing it. -/
theorem legacy_uuid_redirect_w :
    ∃ dd, isDateFolderName dd = true ∧
      (∃ e ∈ entriesHit, e.name = dd ∧ e.containsFile uuidName = true) ∧
      getUploadsByFilename entriesHit uuidName =
        .redirect 301 ("/uploads/" ++ dd ++ "/" ++ uuidName) :=
  (legacy_uuid_redirect entriesHit uuidName (by decide)).1
    ⟨DirEntry.dir "2025-10-16" [uuidName], by decide, by decide, by decide⟩

/-- Claim C9: a single-segment name that fails the UUID pattern is answered
`notFound` whatever the listing contains (no date folder is consulted), and
a file stored flat under the storage root is never served through the
single-segment route: when no date folder contains the name, the answer is
`notFound` or the 404 body, never a redirect, even though the flat entry
exists. -/
theorem flat_files_unreachable (entries : List DirEntry) (filename : String) :
    (isUuidFilename filename = false →
       getUploadsByFilename entries filename = .notFound) ∧
    (DirEntry.file filename ∈ entries →
     (∀ e ∈ entries, isDateFolderName e.name = true → e.containsFile filename = false) →
       getUploadsByFilename entries filename = .notFound ∨
       getUploadsByFilename entries filename = .jsonError 404 "File not found") := by
  constructor
  · intro hu
    simp [getUploadsByFilename, hu]
  · intro hflat hnone
    cases hu : isUuidFilename filename with
    | false => exact Or.inl (by simp [getUploadsByFilename, hu])
    | true =>
      exact Or.inr
        (by simp [getUploadsByFilename, hu, findDateFolderWith_eq_none entries filename hnone])

/-- A storage-root listing in which a UUID-shaped filename exists only as a
flat file, next to a date folder holding something else. -/
def entriesFlat : List DirEntry :=
  [DirEntry.file uuidName,
   DirEntry.dir "2025-10-16" ["0a9c2b65-a053-412c-b1d1-b1c241c14591.png"]]

/-- Witness for C9: a non-UUID name is `notFound` on `entriesHit`, and on
`entriesFlat` the flat `uuidName` is unreachable (404, no redirect). -/
theorem flat_files_unreachable_w :
    getUploadsByFilename entriesHit "stray.bin" = .notFound ∧
    (getUploadsByFilename entriesFlat uuidName = .notFound ∨
     getUploadsByFilename entriesFlat uuidName = .jsonError 404 "File not found") :=
  ⟨(flat_files_unreachable entriesHit "stray.bin").1 (by decide),
   (flat_files_unreachable entriesFlat uuidName).2 (by decide) (by decide)⟩

/-- Claim C6: with an API key configured and the request reaching the
API-key check (file present, size accepted, type resolved and allowed,
extension nonempty), a missing or mismatching `authorization` header is
rejected 401 with body `Invalid API key` and nothing written; a header
exactly equal to the key passes this check (the result is never the
`invalidApiKey` rejection). -/
theorem api_key_check (cfg : Config)
    (sniff : List Nat → Option FileAnalysisResult) (u d : String) (f1 f2 : Bool)
    (req : UploadRequest) (file : UploadedFile) (key a e : String)
    (hf : req.file = some file)
    (hkey : cfg.ApiKey = some key)
    (hs : sizeExceeded cfg.FileSize file.size = false)
    (hc : classifyFile sniff file.type file.bytes = some (a, e))
    (hmr : mimeRejected cfg.Mimes a = false)
    (hne : ¬ e = "") :
    (¬ req.authorization = some key →
       uploadHandler cfg sniff u d f1 f2 req =
         { result := .invalidApiKey, actions := [Action.respond 401] } ∧
       (UploadResult.invalidApiKey).status = 401 ∧
       (UploadResult.invalidApiKey).errorMessage = some "Invalid API key" ∧
       ∀ act ∈ (uploadHandler cfg sniff u d f1 f2 req).actions, act.isWriteFile = false) ∧
    (req.authorization = some key →
       apiKeyRejected cfg.ApiKey req.authorization = false ∧
       ¬ (uploadHandler cfg sniff u d f1 f2 req).result = .invalidApiKey) := by
  constructor
  · intro hna
    have hak : apiKeyRejected cfg.ApiKey req.authorization = true := by
      simp [apiKeyRejected, hkey, hna]
    have houtcome : uploadHandler cfg sniff u d f1 f2 req =
        { result := .invalidApiKey, actions := [Action.respond 401] } := by
      simp [uploadHandler, hf, hs, hc, hmr, hne, hak]
    refine ⟨houtcome, rfl, rfl, ?_⟩
    rw [houtcome]
    intro act hact
    obtain rfl : act = Action.respond 401 := by simpa using hact
    rfl
  · intro hauth
    have hak : apiKeyRejected cfg.ApiKey req.authorization = false := by
      simp [apiKeyRejected, hkey, hauth]
    refine ⟨hak, fun hres => ?_⟩
    rw [(uploadHandler_inversion cfg sniff u d f1 f2 req).2.1 hres] at hak
    cases hak

/-- A configuration requiring the API key `secret`. -/
def cfgKeyed : Config := { cfgBase with ApiKey := some "secret" }

/-- Witness for C6: with `API_KEY=secret`, `authorization: wrong` yields
the 401 `invalidApiKey` outcome and `authorization: secret` never does. -/
theorem api_key_check_w :
    uploadHandler cfgKeyed sniffJpeg "u-1" "2025-10-16" false false
      { reqJpeg with authorization := some "wrong" } =
      { result := .invalidApiKey, actions := [Action.respond 401] } ∧
    ¬ (uploadHandler cfgKeyed sniffJpeg "u-1" "2025-10-16" false false
      { reqJpeg with authorization := some "secret" }).result = .invalidApiKey :=
  ⟨((api_key_check cfgKeyed sniffJpeg "u-1" "2025-10-16" false false
      { reqJpeg with authorization := some "wrong" } fileJpeg "secret" "image/jpeg" "jpg"
      rfl rfl (by decide) (by decide) (by decide) (by decide)).1 (by decide)).1,
   ((api_key_check cfgKeyed sniffJpeg "u-1" "2025-10-16" false false
      { reqJpeg with authorization := some "secret" } fileJpeg "secret" "image/jpeg" "jpg"
      rfl rfl (by decide) (by decide) (by decide) (by decide)).2 rfl).2⟩

/-- A configuration with a Discord webhook URL set. -/
def cfgHook : Config := { cfgBase with DiscordWebhook := some "https://example.com/wh" }

/-- Counterexample to claim C7 as stated: on a concrete successful upload
with a webhook configured, both webhook POSTs appear in the handler's
action trace strictly before the response is issued — the two `fetch`
calls are awaited inside the handler (server.ts lines 406-421), so
dispatch does block the response path, contrary to the claim. -/
theorem webhook_await_counterexample :
    ((uploadHandler cfgHook sniffJpeg "u-1" "2025-10-16" false false reqJpeg).actions.takeWhile
        (fun act => !(act.isRespond))).countP Action.isWebhookPost = 2 ∧
    (uploadHandler cfgHook sniffJpeg "u-1" "2025-10-16" false false reqJpeg).actions =
      [Action.ensureDir "./uploads/2025-10-16",
       Action.writeFile "./uploads/2025-10-16/u-1.jpg" [255, 216, 255, 224],
       Action.webhookPost "https://example.com/wh"
         (WebhookPayload.embed "u-1.jpg" "2025-10-16" 4 "image/jpeg" none
           "http://cdn.example/uploads/2025-10-16/u-1.jpg"),
       Action.webhookPost "https://example.com/wh"
         (WebhookPayload.urlOnly "http://cdn.example/uploads/2025-10-16/u-1.jpg"),
       Action.respond 200] :=
  ⟨rfl, rfl⟩

/-- Amended claim C7: webhook dispatch is awaited inside the handler (the
response is issued only after the POSTs settle), but delivery failures
never alter the JSON result — it is identical whatever the two fetches
do — at most two POSTs are ever made (none is retried), and a failure of
the first POST skips the second. -/
theorem webhook_failure_isolated (cfg : Config)
    (sniff : List Nat → Option FileAnalysisResult) (u d : String)
    (req : UploadRequest) (f1 f2 f1' f2' : Bool) :
    (uploadHandler cfg sniff u d f1 f2 req).result =
      (uploadHandler cfg sniff u d f1' f2' req).result ∧
    (uploadHandler cfg sniff u d f1 f2 req).actions.countP Action.isWebhookPost ≤ 2 ∧
    (f1 = true →
      (uploadHandler cfg sniff u d f1 f2 req).actions.countP Action.isWebhookPost ≤ 1) := by
  cases hfl : req.file with
  | none => simp [uploadHandler, hfl, Action.isWebhookPost]
  | some file =>
    cases hs : sizeExceeded cfg.FileSize file.size with
    | true => simp [uploadHandler, hfl, hs, Action.isWebhookPost]
    | false =>
      cases hc : classifyFile sniff file.type file.bytes with
      | none => simp [uploadHandler, hfl, hs, hc, Action.isWebhookPost]
      | some pr =>
        obtain ⟨a, e⟩ := pr
        cases hmr : mimeRejected cfg.Mimes a with
        | true => simp [uploadHandler, hfl, hs, hc, hmr, Action.isWebhookPost]
        | false =>
          cases he : e == "" with
          | true => simp [uploadHandler, hfl, hs, hc, hmr, he, Action.isWebhookPost]
          | false =>
            cases hak : apiKeyRejected cfg.ApiKey req.authorization with
            | true => simp [uploadHandler, hfl, hs, hc, hmr, he, hak, Action.isWebhookPost]
            | false =>
              cases hor : originRejected cfg.RequireOrigin req.origin with
              | true =>
                simp [uploadHandler, hfl, hs, hc, hmr, he, hak, hor, Action.isWebhookPost]
              | false =>
                cases hw : cfg.DiscordWebhook with
                | none =>
                  simp [uploadHandler, hfl, hs, hc, hmr, he, hak, hor, hw, Action.isWebhookPost]
                | some wh =>
                  cases f1 <;>
                    simp [uploadHandler, hfl, hs, hc, hmr, he, hak, hor, hw, Action.isWebhookPost]

/-- Witness for the amended C7: on the concrete successful upload the
result is unchanged when both fetches throw, and a first-fetch failure
leaves at most one POST in the trace. -/
theorem webhook_failure_isolated_w :
    (uploadHandler cfgHook sniffJpeg "u-1" "2025-10-16" true true reqJpeg).result =
      (uploadHandler cfgHook sniffJpeg "u-1" "2025-10-16" false false reqJpeg).result ∧
    (uploadHandler cfgHook sniffJpeg "u-1" "2025-10-16" true true reqJpeg).actions.countP
      Action.isWebhookPost ≤ 1 :=
  ⟨(webhook_failure_isolated cfgHook sniffJpeg "u-1" "2025-10-16" reqJpeg true true false false).1,
   (webhook_failure_isolated cfgHook sniffJpeg "u-1" "2025-10-16" reqJpeg true true false false).2.2
     rfl⟩

/-- Claim C8: `MAX_FILE_SIZE_MB=0` loads the limit `0`
(`getEnvNumber "0" 50 = 0`), the guard treats the stored `0` as falsy so
the size rule never fires, and consequently the handler never answers
`tooLarge` (413), whatever the request's byte size. -/
theorem zero_size_limit_disables (cfg : Config)
    (sniff : List Nat → Option FileAnalysisResult) (u d : String) (f1 f2 : Bool)
    (req : UploadRequest) :
    getEnvNumber "0" 50 = 0 ∧
    (∀ bytes, sizeExceeded (some 0) bytes = false) ∧
    ¬ (uploadHandler { cfg with FileSize := some 0 } sniff u d f1 f2 req).result = .tooLarge := by
  refine ⟨rfl, fun bytes => rfl, fun hres => ?_⟩
  obtain ⟨file, -, hsz⟩ :=
    (uploadHandler_inversion { cfg with FileSize := some 0 } sniff u d f1 f2 req).1 hres
  simp [sizeExceeded] at hsz

/-- Witness for C8: a file one byte over 1 MB is not rejected as too large
when the stored limit is `0`. -/
theorem zero_size_limit_disables_w :
    ¬ (uploadHandler { cfgBase with FileSize := some 0 } sniffJpeg "u-1" "2025-10-16" false false
      reqBig).result = .tooLarge :=
  (zero_size_limit_disables cfgBase sniffJpeg "u-1" "2025-10-16" false false reqBig).2.2

/-- Claim C10: a well-formed `player-metadata` header whose `identifier` or
`name` is empty parses to `none` and the upload behaves exactly as if the
header were absent (and as for unparseable JSON): identical outcome, a
success payload whose `playerMetadata` field is `none`, and no player
metadata in any posted embed webhook payload. -/
theorem empty_metadata_ignored (cfg : Config)
    (sniff : List Nat → Option FileAnalysisResult) (u d : String) (f1 f2 : Bool)
    (req : UploadRequest) (i n : String)
    (h : i = "" ∨ n = "") :
    getPlayerMetadata (.parsed i n) = none ∧
    uploadHandler cfg sniff u d f1 f2 { req with playerMetadataHeader := .parsed i n } =
      uploadHandler cfg sniff u d f1 f2 { req with playerMetadataHeader := .absent } ∧
    uploadHandler cfg sniff u d f1 f2 { req with playerMetadataHeader := .parsed i n } =
      uploadHandler cfg sniff u d f1 f2 { req with playerMetadataHeader := .malformed } ∧
    (∀ p, (uploadHandler cfg sniff u d f1 f2
        { req with playerMetadataHeader := .parsed i n }).result = .ok p →
       p.playerMetadata = none) ∧
    (∀ wh fn df sz mt pm url,
       Action.webhookPost wh (WebhookPayload.embed fn df sz mt pm url) ∈
         (uploadHandler cfg sniff u d f1 f2
           { req with playerMetadataHeader := .parsed i n }).actions →
       pm = none) := by
  have hmeta : getPlayerMetadata (.parsed i n) = none := by
    rcases h with rfl | rfl <;> simp [getPlayerMetadata]
  have hred : getPlayerMetadata
      ({ req with playerMetadataHeader := PlayerMetaHeader.parsed i n }).playerMetadataHeader =
      none := hmeta
  refine ⟨hmeta,
    uploadHandler_metadata_congr cfg sniff u d f1 f2 req _ _ (by rw [hmeta]; rfl),
    uploadHandler_metadata_congr cfg sniff u d f1 f2 req _ _ (by rw [hmeta]; rfl), ?_, ?_⟩
  · intro p hp
    have hfield := (uploadHandler_inversion cfg sniff u d f1 f2
      { req with playerMetadataHeader := .parsed i n }).2.2.2.1 p hp
    rw [hfield]
    exact hred
  · intro wh fn df sz mt pm url hmem
    have hfield := (uploadHandler_inversion cfg sniff u d f1 f2
      { req with playerMetadataHeader := .parsed i n }).2.2.2.2 wh fn df sz mt pm url hmem
    rw [hfield]
    exact hred

/-- Witness for C10: the header value `{"identifier":"","name":"Bob"}`
parses but is dropped, and the upload outcome equals the header-absent
outcome. -/
theorem empty_metadata_ignored_w :
    getPlayerMetadata (.parsed "" "Bob") = none ∧
    uploadHandler cfgBase sniffJpeg "u-1" "2025-10-16" false false
        { reqJpeg with playerMetadataHeader := .parsed "" "Bob" } =
      uploadHandler cfgBase sniffJpeg "u-1" "2025-10-16" false false
        { reqJpeg with playerMetadataHeader := .absent } := by
  have h := empty_metadata_ignored cfgBase sniffJpeg "u-1" "2025-10-16" false false reqJpeg
    "" "Bob" (Or.inl rfl)
  exact ⟨h.1, h.2.1⟩

end LbUpload
